import Mathlib

/-!
Verification of the Demo_generator front-end against its specification.

The development shallowly embeds the repository's logic:
* `src/services/gemini.ts`   — request assembly (`bringToLife`) and the
  markdown-fence stripping applied to the model's response;
* `src/components/Hero.tsx`  — the `LivePreview` panel: split-view
  recomputation, download filename sanitization, copy-prompt extraction,
  and the screen-recording handler (modelled as an effect trace);
* the input area (`InputArea`) — submit guard, attachment collection.

JavaScript strings are modelled as Lean `String`/`List Char`; JS truthiness
of strings ("" is falsy) and the JS whitespace class used by `\s` and
`String.prototype.trim` are modelled explicitly.
-/

/-- The JavaScript whitespace class: the characters matched by the regex
class `\s` and removed by `String.prototype.trim` (WhiteSpace ∪
LineTerminator of the ECMAScript standard). -/
def isJsWs (c : Char) : Bool :=
  c = ' ' || c = '\t' || c = '\n' || c = '\r' || c = '\x0b' || c = '\x0c' ||
  c = '\u00a0' || c = '\u1680' || ('\u2000' ≤ c && c ≤ '\u200a') ||
  c = '\u2028' || c = '\u2029' || c = '\u202f' || c = '\u205f' ||
  c = '\u3000' || c = '\ufeff'

/-- `String.prototype.trim`: drop JS whitespace from both ends. -/
def jsTrim (s : String) : String :=
  ⟨((s.data.dropWhile isJsWs).reverse.dropWhile isJsWs).reverse⟩

/-! ## `src/services/gemini.ts` -/

/-- The `ImageAttachment` interface of `gemini.ts`: a base64 payload plus a
MIME type. -/
structure ImageAttachment where
  base64 : String
  mimeType : String
deriving DecidableEq

/-- One element of the `parts` array assembled by `bringToLife`: either a
text part `{ text: … }` or an inline binary part
`{ inlineData: { data: …, mimeType: … } }`. -/
inductive GenPart where
  | text : String → GenPart
  | inlineData : (data : String) → (mimeType : String) → GenPart
deriving DecidableEq

/-- The `finalPrompt` template literal of `bringToLife`, byte for byte,
with the three interpolations (`url`, `instructions`, `images.length`)
as parameters. -/
def finalPrompt (url instructions : String) (imageCount : Nat) : String :=
  "\n  *** DESKTOP SCREENCAST GENERATION REQUEST ***\n  \n  TARGET URL: \""
  ++ url ++
  "\"\n  USER INSTRUCTIONS/FLOW: \"" ++ instructions ++
  "\"\n  ATTACHED REFERENCE IMAGES: " ++ toString imageCount ++
  "\n  \n  TASK:\n  1. ANALYZE the URL and any attached images to determine the brand, color palette, and layout.\n  2. GENERATE a high-fidelity HTML/CSS/JS simulation of this website inside a browser frame.\n  3. ANIMATE the cursor and scroll behavior to match the \"User Instructions\".\n  4. IF IMAGES are provided, incorporate them intelligently (e.g., as the main page content or as feature sections).\n  5. ADD a Loom-style presenter bubble narrating the flow described.\n  6. IMPLEMENT Web Speech API for real-time voice narration of the script.\n  \n  GENERATE THE FULL HTML/JS/CSS NOW.\n  "

/-- The `parts` array assembled by `bringToLife`: first
`parts.push({ text: finalPrompt })`, then one
`parts.push({ inlineData: { data: img.base64, mimeType: img.mimeType } })`
per image, in order of `images.forEach`. -/
def requestParts (url instructions : String)
    (images : List ImageAttachment) : List GenPart :=
  [GenPart.text (finalPrompt url instructions images.length)] ++
    images.map (fun img => GenPart.inlineData img.base64 img.mimeType)

/-- Recognizer for inline binary parts. -/
def isInlinePart : GenPart → Bool
  | GenPart.inlineData _ _ => true
  | _ => false

/-- Recognizer for text parts. -/
def isTextPart : GenPart → Bool
  | GenPart.text _ => true
  | _ => false

/-- First `replace` of the response cleanup:
`text.replace(/^```html\s*/, '')` — if the string starts with "```html",
remove it together with the following run of whitespace. -/
def stripLeadHtmlFence (l : List Char) : List Char :=
  if "```html".data.isPrefixOf l then (l.drop 7).dropWhile isJsWs else l

/-- Second `replace`: `.replace(/^```\s*/, '')`. -/
def stripLeadFence (l : List Char) : List Char :=
  if "```".data.isPrefixOf l then (l.drop 3).dropWhile isJsWs else l

/-- Third `replace`: `.replace(/```$/, '')` — remove a trailing "```". -/
def stripTrailFence (l : List Char) : List Char :=
  if "```".data.isSuffixOf l then l.take (l.length - 3) else l

/-- The markdown-fence cleanup applied by `bringToLife` to the model's
response text: the three anchored regex replaces in sequence. -/
def cleanFences (s : String) : String :=
  ⟨stripTrailFence (stripLeadFence (stripLeadHtmlFence s.data))⟩

/-! ## `src/components/Hero.tsx` — `LivePreview` -/

/-- The `Creation` record (`CreationHistory`): generated document, derived
name, optional original reference image (a data-URL string). -/
structure Creation where
  name : String
  html : String
  originalImage : Option String
deriving DecidableEq

/-- JS truthiness of an optional string: `undefined` and `""` are falsy. -/
def optStrTruthy : Option String → Bool
  | none => false
  | some s => !s.isEmpty

/-- The `useEffect(..., [creation])` of `LivePreview`: whenever the active
creation changes, `setShowSplitView(true)` if `creation?.originalImage` is
truthy, else `setShowSplitView(false)`. The previous flag value is the
second argument; the effect never reads it. -/
def splitViewOnChange (creation : Option Creation) (_prevSplitView : Bool) :
    Bool :=
  if optStrTruthy (match creation with
                   | some c => c.originalImage
                   | none => none)
  then true else false

/-- One character of `name.replace(/[^a-z0-9]/gi, '_')`: characters outside
ASCII letters and digits become an underscore. -/
def replaceNonAlnumChar (c : Char) : Char :=
  if ('a' ≤ c && c ≤ 'z') || ('A' ≤ c && c ≤ 'Z') || ('0' ≤ c && c ≤ '9')
  then c else '_'

/-- `creation.name.replace(/[^a-z0-9]/gi, '_').toLowerCase()` — the
filename sanitization shared by `handleDownloadHtml` and
`handleRecordVideo`. After the replace only ASCII characters remain, on
which `toLowerCase` agrees with `Char.toLower`. -/
def sanitizeName (name : String) : String :=
  ⟨(name.data.map replaceNonAlnumChar).map Char.toLower⟩

/-- The download filename used by `handleDownloadHtml`. -/
def htmlDownloadName (c : Creation) : String :=
  sanitizeName c.name ++ ".html"

/-- The download filename used by `handleRecordVideo`'s `onstop`. -/
def webmDownloadName (c : Creation) : String :=
  sanitizeName c.name ++ "_demo.webm"

/-- Split a list at the first occurrence of `pat`: returns
`some (pre, post)` with `l = pre ++ pat ++ post` and no occurrence of
`pat` starting inside `pre`. -/
def splitFirst (pat : List Char) : List Char → Option (List Char × List Char)
  | [] => if pat.isEmpty then some ([], []) else none
  | c :: rest =>
    if pat.isPrefixOf (c :: rest) then
      some ([], (c :: rest).drop pat.length)
    else
      match splitFirst pat rest with
      | some (pre, post) => some (c :: pre, post)
      | none => none

/-- The literal opening tag of the regex in `handleCopyPrompt`. -/
def promptOpenTag : List Char :=
  "<script id=\"design-prompt-data\" type=\"text/plain\">".data

/-- The literal closing tag of the regex in `handleCopyPrompt`. -/
def promptCloseTag : List Char := "</script>".data

/-- The first match of
`/<script id="design-prompt-data" type="text\/plain">([\s\S]*?)<\/script>/`
against `html`: content between the first opening tag and the first closing
tag after it (the capture is lazy, the regex is not global). -/
def extractPromptData (html : List Char) : Option (List Char) :=
  match splitFirst promptOpenTag html with
  | none => none
  | some (_, afterOpen) =>
    match splitFirst promptCloseTag afterOpen with
    | none => none
    | some (content, _) => some content

/-- The fallback sentence of `handleCopyPrompt`. -/
def fallbackPrompt (name : String) : String :=
  "Create a product demo video for " ++ name ++
    ". Include cursor animations and voiceover script."

/-- The text copied by `handleCopyPrompt`: `match[1].trim()` when the regex
matched with a truthy (non-empty) capture (`if (match && match[1])`),
otherwise the fallback sentence. -/
def copyPromptText (c : Creation) : String :=
  match extractPromptData c.html.data with
  | some content =>
    if content.isEmpty then fallbackPrompt c.name else jsTrim ⟨content⟩
  | none => fallbackPrompt c.name

/-- External conditions seen by `handleRecordVideo`: availability of
`navigator.mediaDevices.getDisplayMedia`, outcome of the permission
prompt, and whether `new MediaRecorder(...)`/`mediaRecorder.start()`
succeed. -/
structure CaptureEnv where
  supportsGetDisplayMedia : Bool
  permissionGranted : Bool
  recorderStartOk : Bool
deriving DecidableEq

/-- The observable effects `handleRecordVideo` can perform, in order. -/
inductive RecordEffect where
  | alertUnsupported
  | alertSelectTab
  | requestCapture
  | setRecording : Bool → RecordEffect
  | startRecorder
  | reloadIframe
  | logError
deriving DecidableEq

/-- Effect trace of `handleRecordVideo` (`Hero.tsx`): return immediately
without a creation; alert and return when `getDisplayMedia` is missing;
otherwise request capture inside `try` — a denied prompt throws before
`setIsRecording(true)`, a recorder-start failure throws after it; the
`catch` logs the error and calls `setIsRecording(false)`. Video assembly
and download happen only in the recorder's `onstop` callback, reachable
only after `startRecorder`. -/
def handleRecordVideo (creation : Option Creation) (env : CaptureEnv) :
    List RecordEffect :=
  match creation with
  | none => []
  | some _ =>
    if !env.supportsGetDisplayMedia then
      [RecordEffect.alertUnsupported]
    else if !env.permissionGranted then
      [RecordEffect.alertSelectTab, RecordEffect.requestCapture,
       RecordEffect.logError, RecordEffect.setRecording false]
    else if !env.recorderStartOk then
      [RecordEffect.alertSelectTab, RecordEffect.requestCapture,
       RecordEffect.setRecording true, RecordEffect.logError,
       RecordEffect.setRecording false]
    else
      [RecordEffect.alertSelectTab, RecordEffect.requestCapture,
       RecordEffect.setRecording true, RecordEffect.startRecorder,
       RecordEffect.reloadIframe]

/-- The `isRecording` flag after running a trace from initial value
`init`. -/
def finalRecording (init : Bool) (tr : List RecordEffect) : Bool :=
  tr.foldl (fun acc e => match e with
                         | RecordEffect.setRecording b => b
                         | _ => acc) init

/-! ## `InputArea` (unnamed source file) -/

/-- A browser `File` as far as this component observes it: a name and a
MIME type (`file.type`). -/
structure JsFile where
  name : String
  type : String
deriving DecidableEq

/-- `file.type.startsWith('image/')`. -/
def isImageFile (f : JsFile) : Bool := f.type.startsWith "image/"

/-- The component state handled by `handleSubmit`: the `url`,
`instructions` and `attachedFiles` of `InputArea`. -/
structure InputState where
  url : String
  instructions : String
  attachedFiles : List JsFile
deriving DecidableEq

/-- The guard `!url.trim() && !instructions.trim() &&
attachedFiles.length === 0` (a trimmed-empty string is falsy). -/
def emptyInputs (s : InputState) : Bool :=
  (jsTrim s.url).isEmpty && (jsTrim s.instructions).isEmpty &&
    s.attachedFiles.isEmpty

/-- `handleSubmit`: under the all-empty guard, return without calling
`onGenerate`; otherwise call `onGenerate(url, instructions,
attachedFiles)` with the untrimmed values, then clear `instructions` and
`attachedFiles` (the URL is deliberately kept). The first component is
the argument of the `onGenerate` call, if any. -/
def handleSubmit (s : InputState) :
    Option (String × String × List JsFile) × InputState :=
  if emptyInputs s then (none, s)
  else (some (s.url, s.instructions, s.attachedFiles),
        InputState.mk s.url "" [])

/-- The `disabled` attribute of the submit button:
`(!url.trim() && !instructions.trim() && attachedFiles.length === 0) ||
isGenerating`. -/
def submitDisabled (s : InputState) (isGenerating : Bool) : Bool :=
  emptyInputs s || isGenerating

/-- `handlePaste`: ignored while disabled or generating; otherwise, when
the clipboard carries files, append those whose MIME type starts with
`image/` (and only touch the state when at least one such file exists). -/
def handlePaste (disabled isGenerating : Bool) (clipboardFiles : List JsFile)
    (prev : List JsFile) : List JsFile :=
  if disabled || isGenerating then prev
  else if clipboardFiles.isEmpty then prev
  else
    let newFiles := clipboardFiles.filter isImageFile
    if newFiles.isEmpty then prev else prev ++ newFiles

/-- `handleFileChange`: when the picker returned files, append them all —
no MIME-type check in code (only the `accept="image/*"` hint). -/
def handleFileChange (selected : List JsFile) (prev : List JsFile) :
    List JsFile :=
  if selected.isEmpty then prev else prev ++ selected

/-- `handleDrop`: ignored while disabled or generating; otherwise append
the dropped files whose MIME type starts with `image/`. -/
def handleDrop (disabled isGenerating : Bool) (dropped : List JsFile)
    (prev : List JsFile) : List JsFile :=
  if disabled || isGenerating then prev
  else if dropped.isEmpty then prev
  else prev ++ dropped.filter isImageFile

/-! ## Helper lemmas -/

/-- Bridge between the boolean `isPrefixOf` used in the executable
definitions and the `<+:` relation. -/
lemma prefixOf_bridge {p l : List Char} : p.isPrefixOf l = true ↔ p <+: l :=
  List.isPrefixOf_iff_prefix

/-- Extending an infix on the left. -/
lemma infix_extend_left {α : Type} (pre : List α) {l rest : List α}
    (h : l <:+: rest) : l <:+: pre ++ rest := by
  obtain ⟨s, t, hst⟩ := h
  exact ⟨pre ++ s, t, by simp [← hst, List.append_assoc]⟩

/-- A list is an infix of itself followed by anything. -/
lemma infix_self_append {α : Type} (l t : List α) : l <:+: l ++ t :=
  ⟨[], t, by simp⟩

set_option maxRecDepth 8000 in
/-- C1 — The request assembled by `bringToLife` is exactly one text part
first — the prompt embedding the literal url, the literal instructions and
the decimal image count — followed by one inline binary part per
attachment (base64 payload and MIME type), in attachment order; so the
number of inline parts always equals the number of attachments (in
particular 2 for two attachments) and the count reported in the text part
is `images.length`. -/
theorem bringToLife_request_shape (url instr : String)
    (images : List ImageAttachment) :
    requestParts url instr images =
      GenPart.text (finalPrompt url instr images.length) ::
        images.map (fun img => GenPart.inlineData img.base64 img.mimeType) ∧
    (requestParts url instr images).countP isTextPart = 1 ∧
    (requestParts url instr images).countP isInlinePart = images.length ∧
    url.data <:+: (finalPrompt url instr images.length).data ∧
    instr.data <:+: (finalPrompt url instr images.length).data ∧
    (toString images.length).data <:+:
      (finalPrompt url instr images.length).data := by
  refine ⟨by simp [requestParts], ?_, ?_, ?_, ?_, ?_⟩
  · simp [requestParts, List.countP_cons, List.countP_map, Function.comp_def,
      isTextPart]
  · simp [requestParts, List.countP_cons, List.countP_map, Function.comp_def,
      isInlinePart]
  · simp only [finalPrompt, String.data_append, List.append_assoc]
    exact infix_extend_left _ (infix_self_append _ _)
  · simp only [finalPrompt, String.data_append, List.append_assoc]
    exact infix_extend_left _ (infix_extend_left _ (infix_extend_left _
      (infix_self_append _ _)))
  · simp only [finalPrompt, String.data_append, List.append_assoc]
    exact infix_extend_left _ (infix_extend_left _ (infix_extend_left _
      (infix_extend_left _ (infix_extend_left _ (infix_self_append _ _)))))

/-- C2 (counterexample) — fence stripping is not idempotent: on
`"x``````"` one application leaves `"x```"`, a second application strips
again and yields `"x"`. -/
theorem cleanFences_not_idempotent :
    cleanFences (cleanFences "x``````") ≠ cleanFences "x``````" ∧
    cleanFences "x``````" = "x```" ∧
    cleanFences (cleanFences "x``````") = "x" := by
  refine ⟨by decide, by decide, by decide⟩

/-- C2 (amended) — every string containing no fence (no occurrence of
three consecutive backticks) is returned unchanged by the strip, and on
such strings the strip is idempotent; but the strip is **not** idempotent
on arbitrary strings (see the counterexample). -/
theorem cleanFences_no_fence_unchanged (s : String)
    (h : ¬ ("```".data <:+: s.data)) :
    cleanFences s = s ∧ cleanFences (cleanFences s) = cleanFences s := by
  have hpre : ∀ l : List Char, "```".data <+: l → "```".data <:+: l :=
    fun l hp => hp.isInfix
  have h7 : "```html".data.isPrefixOf s.data = false := by
    rw [Bool.eq_false_iff]
    intro hp
    rw [prefixOf_bridge] at hp
    exact h (hpre _ (List.IsPrefix.trans (by decide) hp))
  have h3 : "```".data.isPrefixOf s.data = false := by
    rw [Bool.eq_false_iff]
    intro hp
    rw [prefixOf_bridge] at hp
    exact h (hpre _ hp)
  have h3s : "```".data.isSuffixOf s.data = false := by
    rw [Bool.eq_false_iff]
    intro hp
    rw [List.isSuffixOf_iff_suffix] at hp
    exact h hp.isInfix
  have hclean : cleanFences s = s := by
    obtain ⟨l⟩ := s
    show String.mk (stripTrailFence (stripLeadFence (stripLeadHtmlFence l)))
      = String.mk l
    rw [stripLeadHtmlFence, if_neg (by simp_all), stripLeadFence,
      if_neg (by simp_all), stripTrailFence, if_neg (by simp_all)]
  exact ⟨hclean, by rw [hclean, hclean]⟩

/-- Witness for C2 (amended): the fence-free response `"<p>ok</p>"` is
returned unchanged and the strip is idempotent on it. -/
theorem cleanFences_no_fence_unchanged_witness :
    ¬ ("```".data <:+: "<p>ok</p>".data) ∧
    cleanFences "<p>ok</p>" = "<p>ok</p>" := by
  refine ⟨by decide, (cleanFences_no_fence_unchanged "<p>ok</p>" (by decide)).1⟩

/-- C3 (counterexample) — a Creation whose `originalImage` is defined but
empty (`some ""`) is falsy in JS, so the effect sets the split-view flag
to `false`, contradicting "for any Creation whose originalImage is
defined, SplitView becomes true". -/
theorem splitView_empty_image_cex :
    (Creation.mk "Demo" "<!DOCTYPE html>" (some "")).originalImage.isSome
      = true ∧
    splitViewOnChange (some (Creation.mk "Demo" "<!DOCTYPE html>" (some "")))
      true = false := by
  exact ⟨by decide, by decide⟩

/-- C3 (amended) — whenever the active Creation changes the flag is
recomputed: a Creation with a defined **non-empty** `originalImage` sets
`SplitView = true`; a Creation with `originalImage` undefined or the empty
string, and a cleared Creation, set `SplitView = false`; in every case the
result is independent of the flag held for the previous Creation. -/
theorem splitView_recompute :
    (∀ (c : Creation) (prev : Bool) (s : String),
       c.originalImage = some s → s ≠ "" →
       splitViewOnChange (some c) prev = true) ∧
    (∀ (c : Creation) (prev : Bool),
       c.originalImage = none ∨ c.originalImage = some "" →
       splitViewOnChange (some c) prev = false) ∧
    (∀ prev : Bool, splitViewOnChange none prev = false) ∧
    (∀ (creation : Option Creation) (p q : Bool),
       splitViewOnChange creation p = splitViewOnChange creation q) := by
  refine ⟨?_, ?_, ?_, ?_⟩
  · intro c prev s h hs
    have hne : s.isEmpty = false := by
      rw [Bool.eq_false_iff]
      intro hcontra
      exact hs ((String.isEmpty_iff s).mp hcontra)
    simp [splitViewOnChange, optStrTruthy, h, hne]
  · intro c prev h
    rcases h with h | h
    · simp [splitViewOnChange, optStrTruthy, h]
    · simp [splitViewOnChange, optStrTruthy, h]
      rfl
  · intro prev; rfl
  · intro creation p q; rfl

/-- Witness for C3 (amended): a Creation with a non-empty reference image
turns the flag on even though it was previously on for another Creation;
one without a reference image turns it off. -/
theorem splitView_recompute_witness :
    splitViewOnChange
      (some (Creation.mk "A" "<!DOCTYPE html>"
        (some "data:image/png;base64,AAAA"))) true = true ∧
    splitViewOnChange
      (some (Creation.mk "A" "<!DOCTYPE html>" none)) true = false :=
  ⟨splitView_recompute.1 _ true _ rfl (by decide),
   splitView_recompute.2.1 _ true (Or.inl rfl)⟩

/-- C4 (counterexample) — the sanitizer replaces non-alphanumeric
characters with underscores instead of removing them: the name
`"Linear.app Demo!"` yields `"linear_app_demo_.html"`, not the claimed
`"linearapp_demo.html"`. -/
theorem downloadName_cex :
    htmlDownloadName (Creation.mk "Linear.app Demo!" "" none)
      = "linear_app_demo_.html" ∧
    htmlDownloadName (Creation.mk "Linear.app Demo!" "" none)
      ≠ "linearapp_demo.html" ∧
    webmDownloadName (Creation.mk "Linear.app Demo!" "" none)
      = "linear_app_demo__demo.webm" := by
  exact ⟨by decide, by decide, by decide⟩

/-- C4 (amended) — for any creation name, every character outside ASCII
letters and digits is replaced by an underscore and the remainder is
lower-cased; the identical sanitization is used for the HTML download
(suffix `.html`) and the recorded-video download (suffix
`_demo.webm`). -/
theorem downloadName_sanitization (c : Creation) :
    htmlDownloadName c = sanitizeName c.name ++ ".html" ∧
    webmDownloadName c = sanitizeName c.name ++ "_demo.webm" ∧
    (sanitizeName c.name).data =
      c.name.data.map (fun ch =>
        if ('a' ≤ ch && ch ≤ 'z') || ('A' ≤ ch && ch ≤ 'Z') ||
           ('0' ≤ ch && ch ≤ '9')
        then Char.toLower ch else '_') := by
  have hfun : ∀ ch : Char,
      Char.toLower (replaceNonAlnumChar ch) =
        (if ('a' ≤ ch && ch ≤ 'z') || ('A' ≤ ch && ch ≤ 'Z') ||
            ('0' ≤ ch && ch ≤ '9')
         then Char.toLower ch else '_') := by
    intro ch
    unfold replaceNonAlnumChar
    by_cases h : (('a' ≤ ch && ch ≤ 'z') || ('A' ≤ ch && ch ≤ 'Z') ||
        ('0' ≤ ch && ch ≤ '9')) = true
    · simp [h]
    · simp [h]
  refine ⟨rfl, rfl, ?_⟩
  simp [sanitizeName, List.map_map, Function.comp_def, hfun]

/-- C5 (counterexample) — the submit control is **not** disabled under
exactly the all-empty condition: with a non-empty URL it is still rendered
disabled while a generation is in flight. -/
theorem submitDisabled_cex :
    submitDisabled (InputState.mk "https://x.com" "" []) true = true ∧
    emptyInputs (InputState.mk "https://x.com" "" []) = false := by
  exact ⟨by decide, by decide⟩

/-- C5 (amended) — when URL, instructions and attachments are all empty,
`handleSubmit` returns without invoking `onGenerate` and without raising
an error (it is a total function leaving the state untouched); the submit
control is rendered disabled exactly when that all-empty condition holds
**or** a generation is in flight — in particular it is disabled whenever
the inputs are all empty. -/
theorem submit_guard_disabled (s : InputState) (g : Bool) :
    (emptyInputs s = true → handleSubmit s = (none, s)) ∧
    (submitDisabled s g = true ↔ (emptyInputs s = true ∨ g = true)) ∧
    (emptyInputs s = true → submitDisabled s g = true) := by
  refine ⟨fun h => by simp [handleSubmit, h], ?_,
    fun h => by simp [submitDisabled, h]⟩
  simp [submitDisabled]

/-- Witness for C5 (amended): the all-empty state is rejected locally and
its submit control is disabled. -/
theorem submit_guard_disabled_witness :
    emptyInputs (InputState.mk "" "" []) = true ∧
    handleSubmit (InputState.mk "" "" []) = (none, InputState.mk "" "" []) ∧
    submitDisabled (InputState.mk "" "" []) false = true :=
  ⟨by decide, (submit_guard_disabled (InputState.mk "" "" []) false).1
    (by decide),
   (submit_guard_disabled (InputState.mk "" "" []) false).2.2 (by decide)⟩

/-- Soundness of `splitFirst`: a successful split decomposes the list. -/
lemma splitFirst_eq {pat : List Char} : ∀ {l pre post : List Char},
    splitFirst pat l = some (pre, post) → l = pre ++ pat ++ post := by
  intro l
  induction l with
  | nil =>
    intro pre post h
    by_cases hp : pat.isEmpty
    · simp [splitFirst, hp] at h
      simp [h.1, h.2, List.isEmpty_iff.mp hp]
    · simp [splitFirst, hp] at h
  | cons c rest ih =>
    intro pre post h
    by_cases hp : pat.isPrefixOf (c :: rest)
    · rw [splitFirst, if_pos hp] at h
      obtain ⟨hpre, hpost⟩ := Prod.mk.injEq .. ▸ Option.some.injEq .. ▸ h
      have hx : pat <+: c :: rest := prefixOf_bridge.mp hp
      obtain ⟨t, ht⟩ := hx
      have hdrop : (c :: rest).drop pat.length = t := by
        rw [← ht]; exact List.drop_left pat t
      rw [← hpre, ← hpost, List.nil_append, hdrop]
      exact ht.symm
    · rw [splitFirst, if_neg hp] at h
      cases hsf : splitFirst pat rest with
      | none => rw [hsf] at h; exact absurd h (by simp)
      | some pq =>
        obtain ⟨p2, q2⟩ := pq
        rw [hsf] at h
        obtain ⟨hpre, hpost⟩ := Prod.mk.injEq .. ▸ Option.some.injEq .. ▸ h
        rw [← hpre, ← hpost]
        simp [ih hsf]

/-- C6 (counterexample) — an embedded tag with empty content matches the
pattern (the extraction returns `some []`, and the trimmed content is the
empty string), yet `handleCopyPrompt` copies the fallback sentence because
`match[1]` is falsy, contradicting "the copied text is the trimmed content
of that tag". -/
theorem copyPrompt_empty_capture_cex :
    extractPromptData
      ("<script id=\"design-prompt-data\" type=\"text/plain\"></script>").data
      = some [] ∧
    copyPromptText (Creation.mk "Acme"
      "<script id=\"design-prompt-data\" type=\"text/plain\"></script>" none)
      = fallbackPrompt "Acme" ∧
    copyPromptText (Creation.mk "Acme"
      "<script id=\"design-prompt-data\" type=\"text/plain\"></script>" none)
      ≠ "" := by
  exact ⟨by decide, by decide, by decide⟩

/-- C6 (amended) — if `creation.html` contains the embedded tag pattern
with a **non-empty** capture, the copied text is the trimmed content of
the first such tag; otherwise — no match, or a match whose content is
empty — the copied text is the generic fallback sentence referencing the
creation's name. The extraction is sound: a successful match exhibits the
literal tag inside the document. -/
theorem copyPrompt_rule (c : Creation) :
    (∀ content : List Char,
       extractPromptData c.html.data = some content → content ≠ [] →
       copyPromptText c = jsTrim ⟨content⟩) ∧
    (extractPromptData c.html.data = none →
       copyPromptText c = fallbackPrompt c.name) ∧
    (extractPromptData c.html.data = some [] →
       copyPromptText c = fallbackPrompt c.name) ∧
    (∀ content : List Char,
       extractPromptData c.html.data = some content →
       promptOpenTag ++ content ++ promptCloseTag <:+: c.html.data) := by
  refine ⟨?_, ?_, ?_, ?_⟩
  · intro content h hne
    simp [copyPromptText, h, List.isEmpty_iff, hne]
  · intro h
    simp [copyPromptText, h]
  · intro h
    simp [copyPromptText, h]
  · intro content h
    cases h1 : splitFirst promptOpenTag c.html.data with
    | none => simp [extractPromptData, h1] at h
    | some pq =>
      obtain ⟨pre1, afterOpen⟩ := pq
      cases h2 : splitFirst promptCloseTag afterOpen with
      | none => simp [extractPromptData, h1, h2] at h
      | some cq =>
        obtain ⟨content', rest⟩ := cq
        have hceq : content' = content := by
          simpa [extractPromptData, h1, h2] using h
        have e1 : c.html.data = pre1 ++ promptOpenTag ++ afterOpen :=
          splitFirst_eq h1
        have e2 : afterOpen = content ++ promptCloseTag ++ rest := by
          rw [← hceq]; exact splitFirst_eq h2
        exact ⟨pre1, rest, by simp [e1, e2, List.append_assoc]⟩

/-- Witness for C6 (amended): a document embedding the tag with content
`" hi "` gets that content, trimmed, as the copied text. -/
theorem copyPrompt_rule_witness :
    extractPromptData (Creation.mk "Acme"
      "<script id=\"design-prompt-data\" type=\"text/plain\"> hi </script>"
      none).html.data = some " hi ".data ∧
    " hi ".data ≠ [] ∧
    copyPromptText (Creation.mk "Acme"
      "<script id=\"design-prompt-data\" type=\"text/plain\"> hi </script>"
      none) = jsTrim ⟨" hi ".data⟩ :=
  ⟨by decide, by decide,
   (copyPrompt_rule (Creation.mk "Acme"
      "<script id=\"design-prompt-data\" type=\"text/plain\"> hi </script>"
      none)).1 " hi ".data (by decide) (by decide)⟩

/-- C7 — drag-drop and clipboard-paste files are appended only when their
MIME type starts with `image/`, while explicitly selected files are all
appended with no MIME-type check in code; accepted files always go to the
end of the attachment list in their original order. -/
theorem attachment_collection (clip dropped selected prev : List JsFile) :
    handlePaste false false clip prev = prev ++ clip.filter isImageFile ∧
    handleDrop false false dropped prev = prev ++ dropped.filter isImageFile ∧
    handleFileChange selected prev = prev ++ selected := by
  refine ⟨?_, ?_, ?_⟩
  · unfold handlePaste
    by_cases hc : clip.isEmpty
    · simp [hc, List.isEmpty_iff.mp hc]
    · simp only [Bool.or_self, Bool.false_eq_true, if_false, hc]
      by_cases hn : (clip.filter isImageFile).isEmpty
      · simp [hn, List.isEmpty_iff.mp hn]
      · simp [hn]
  · unfold handleDrop
    by_cases hd : dropped.isEmpty
    · simp [hd, List.isEmpty_iff.mp hd]
    · simp [hd]
  · unfold handleFileChange
    by_cases hs : selected.isEmpty
    · simp [hs, List.isEmpty_iff.mp hs]
    · simp [hs]

/-- C8 — when the screen-capture API is missing, the permission prompt is
denied, or the recorder fails to start, `handleRecordVideo` never starts a
recorder or reloads the iframe (so no video file can be emitted), the
recording flag ends up `false`, any raised error is caught and logged
(errors only arise after a successful API check), and capture is requested
at most once — no retry. -/
theorem recordVideo_failure_safe (c : Creation) (env : CaptureEnv)
    (hfail : env.supportsGetDisplayMedia = false ∨
             env.permissionGranted = false ∨ env.recorderStartOk = false) :
    RecordEffect.startRecorder ∉ handleRecordVideo (some c) env ∧
    RecordEffect.reloadIframe ∉ handleRecordVideo (some c) env ∧
    finalRecording false (handleRecordVideo (some c) env) = false ∧
    (handleRecordVideo (some c) env).count RecordEffect.requestCapture ≤ 1 ∧
    (env.supportsGetDisplayMedia = true →
       RecordEffect.logError ∈ handleRecordVideo (some c) env) := by
  obtain ⟨s, p, r⟩ := env
  cases s <;> cases p <;> cases r <;>
    simp_all [handleRecordVideo, finalRecording]

/-- Witness for C8: a denied permission prompt leaves no recorder running
and the recording flag false. -/
theorem recordVideo_failure_safe_witness :
    RecordEffect.startRecorder ∉
      handleRecordVideo (some (Creation.mk "A" "<p></p>" none))
        (CaptureEnv.mk true false true) ∧
    finalRecording false
      (handleRecordVideo (some (Creation.mk "A" "<p></p>" none))
        (CaptureEnv.mk true false true)) = false :=
  ⟨(recordVideo_failure_safe (Creation.mk "A" "<p></p>" none)
      (CaptureEnv.mk true false true) (Or.inr (Or.inl rfl))).1,
   (recordVideo_failure_safe (Creation.mk "A" "<p></p>" none)
      (CaptureEnv.mk true false true) (Or.inr (Or.inl rfl))).2.2.1⟩

/-- C9 — every submit that passes the non-empty guard calls `onGenerate`
and leaves the attachment list empty, the instruction text empty, and the
URL exactly as it was. -/
theorem submit_clears_fields (s : InputState) (h : emptyInputs s = false) :
    handleSubmit s =
      (some (s.url, s.instructions, s.attachedFiles),
       InputState.mk s.url "" []) := by
  simp [handleSubmit, h]

/-- Witness for C9: a concrete submit keeps the URL and clears
instructions and attachments. -/
theorem submit_clears_fields_witness :
    handleSubmit
      (InputState.mk "https://linear.app" "show issue creation"
        [JsFile.mk "shot.png" "image/png"]) =
      (some ("https://linear.app", "show issue creation",
        [JsFile.mk "shot.png" "image/png"]),
       InputState.mk "https://linear.app" "" []) :=
  submit_clears_fields
    (InputState.mk "https://linear.app" "show issue creation"
      [JsFile.mk "shot.png" "image/png"]) (by decide)

/-- C10 — emptiness is judged on trimmed strings: whitespace-only URL and
instructions with no attachments are rejected; but whenever submission
proceeds, `onGenerate` receives the original untrimmed url and
instructions. -/
theorem submit_trim_semantics :
    (∀ url instr : String, jsTrim url = "" → jsTrim instr = "" →
       handleSubmit (InputState.mk url instr []) =
         (none, InputState.mk url instr [])) ∧
    (∀ s : InputState, emptyInputs s = false →
       (handleSubmit s).1 = some (s.url, s.instructions, s.attachedFiles)) := by
  constructor
  · intro url instr hu hi
    have he : emptyInputs (InputState.mk url instr []) = true := by
      simp [emptyInputs, hu, hi]
      decide
    simp [handleSubmit, he]
  · intro s h
    simp [handleSubmit, h]

/-- Witness for C10: whitespace-only inputs with no attachment are
rejected; with an attachment present the untrimmed whitespace strings are
passed through. -/
theorem submit_trim_semantics_witness :
    handleSubmit (InputState.mk "   " "\t\n" []) =
      (none, InputState.mk "   " "\t\n" []) ∧
    (handleSubmit
        (InputState.mk "   " " " [JsFile.mk "shot.png" "image/png"])).1 =
      some ("   ", " ", [JsFile.mk "shot.png" "image/png"]) :=
  ⟨submit_trim_semantics.1 "   " "\t\n" (by decide) (by decide),
   submit_trim_semantics.2
     (InputState.mk "   " " " [JsFile.mk "shot.png" "image/png"])
     (by decide)⟩
